import Mathlib

/-
Verification of the BentoML yatai repository client
(src/bentoml/yatai/client/bento_repository_api.py) and the CLI key=value
parser (src/bentoml/cli/utils.py).

The client is embedded shallowly: every RPC response and filesystem probe
the Python code observes is supplied by an explicit environment record, and
every externally visible action (RPC calls, filesystem writes, HTTP
transfers, log lines) is recorded in an event trace.  Each modelled
function returns the trace of events it emitted together with an
Except value: Except.error models a raised BentoMLException, Except.ok a
normal return.  Exceptions raised inside the Python code discard no trace:
the events emitted before the raise are still reported, so ordering claims
(such as "the Error status update is issued before the exception") are
expressed as facts about the returned trace.
-/

set_option autoImplicit false

deriving instance DecidableEq for Except

namespace BentoMLSpec

/-- Status code of the protobuf status message.  The repository client only
distinguishes OK and NOT_FOUND and treats every other code opaquely; the
concrete numerals follow the gRPC-style codes used by the proto
(OK = 0, NOT_FOUND = 5). -/
def statusOK : Nat := 0

/-- The NOT_FOUND status code (see statusOK). -/
def statusNotFound : Nat := 5

/-- A protobuf status: status_code plus error_message, as inspected by the
client at every RPC response. -/
structure StatusPb where
  status_code : Nat
  error_message : String
  deriving DecidableEq

/-- Storage type of a BentoUri, mirroring the BentoUri.StorageType enum the
client compares against (BentoUri.LOCAL, BentoUri.S3, BentoUri.GCS).  UNSET
stands for every enum value the client has no branch for; the Python code
reaches its final else branch on those. -/
inductive UriType where
  | UNSET
  | LOCAL
  | S3
  | GCS
  deriving DecidableEq

/-- The uri record of an Add/Get response: storage type, direct uri, and the
two backend specific presigned url fields (proto string fields default to
the empty string, and Python truthiness on them is the non-empty test). -/
structure BentoUri where
  type : UriType
  uri : String
  s3_presigned_url : String
  gcs_presigned_url : String
  deriving DecidableEq

/-- An AddBento response: a status and the uri record the authority
allocated for the new bundle. -/
structure AddBentoResponse where
  status : StatusPb
  uri : BentoUri
  deriving DecidableEq

/-- Upload status enum of the UploadStatus proto.  UNINITIALIZED is the
state a freshly added bundle is in before any update RPC (the "Pending"
state of the spec). -/
inductive UploadStatus where
  | UNINITIALIZED
  | UPLOADING
  | DONE
  | ERROR
  deriving DecidableEq

/-- Externally visible actions of the client, in program order.  RPCs,
filesystem effects, the HTTP PUT of the archive, and the two log lines of
the bulk delete loop are recorded; purely in-memory steps (building the
tar archive in a BytesIO buffer) have no event. -/
inductive Event where
  | getBento (name version : String)
  | addBento (name version : String)
  | updateBento (name version : String) (status : UploadStatus) (percentage : Option Nat)
  | rmtree (path : String)
  | copytree (src dst : String)
  | httpPut (url : String)
  | listBento (name : Option String) (offset limit : Nat)
  | dangerouslyDeleteBento (name version : String)
  | logDeleteError (name version : String)
  | logDeleted (name version : String)
  deriving DecidableEq

/-- The BentoMLException values the modelled code can raise.  The Python
code raises BentoMLException with an interpolated message string; each
constructor carries exactly the data the corresponding format string
interpolates, so "the error includes X" is stated as X being a field of the
error value. -/
inductive BentoMLError where
  | alreadyRegistered (name version : String)
  | authorityAccess (code : Nat) (msg : String)
  | addFailed (code : Nat) (msg : String)
  | transfer (uriType : String) (httpCode : Nat) (body : String)
  | unsupportedUri (t : UriType) (uri : String)
  | usage (msg : String)
  | getFailed (name version : String)
  deriving DecidableEq

/-- Environment of one upload_from_dir call: the responses the authority
and the object store return, plus the os.path.exists probe of the local
destination directory. -/
structure UploadEnv where
  getStatus : StatusPb
  addResponse : AddBentoResponse
  destExists : Bool
  httpPutStatus : Nat
  httpPutText : String

/-- Human readable backend name used in the transfer error message,
mirroring: uri_type = 'S3' if response.uri.type == BentoUri.S3 else 'GCS'
(bento_repository_api.py line 214). -/
def uriTypeName (t : UriType) : String :=
  if t = UriType.S3 then "S3" else "GCS"

/-- The presigned url the archive is PUT to: the s3 field when the uri type
is S3, the gcs field when it is GCS (bento_repository_api.py
lines 224-231). -/
def presignedOf (u : BentoUri) : String :=
  if u.type = UriType.S3 then u.s3_presigned_url else u.gcs_presigned_url

/-- BentoRepositoryAPIClient.upload_from_dir (bento_repository_api.py
lines 153-256).  The bundle metadata load and label validation/merge
(lines 154-159) are filesystem and pure-metadata steps; the loaded name and
version are passed in directly.  Control flow modelled:

1. GetBento for (name, version); status OK raises already-registered;
   any status other than NOT_FOUND raises the authority error (lines
   161-182).
2. AddBento; non-OK status raises (lines 183-195).
3. LOCAL uri: remove existing destination, copytree, update status DONE,
   return the uri (lines 197-212).
4. S3/GCS uri: update status UPLOADING 0, PUT the archive to the presigned
   url; a status_code other than 200 updates status ERROR and raises a
   transfer error carrying the HTTP code and body; otherwise update DONE
   and return the uri (lines 213-251).
5. Any other uri type raises with no status update (lines 252-256). -/
def upload_from_dir (env : UploadEnv) (name version saved_bento_path : String) :
    List Event × Except BentoMLError String :=
  if env.getStatus.status_code = statusOK then
    ([Event.getBento name version], Except.error (BentoMLError.alreadyRegistered name version))
  else if env.getStatus.status_code ≠ statusNotFound then
    ([Event.getBento name version],
     Except.error (BentoMLError.authorityAccess env.getStatus.status_code env.getStatus.error_message))
  else if env.addResponse.status.status_code ≠ statusOK then
    ([Event.getBento name version, Event.addBento name version],
     Except.error (BentoMLError.addFailed env.addResponse.status.status_code
       env.addResponse.status.error_message))
  else
    match env.addResponse.uri.type with
    | UriType.LOCAL =>
      ([Event.getBento name version, Event.addBento name version] ++
         (if env.destExists then [Event.rmtree env.addResponse.uri.uri] else []) ++
         [Event.copytree saved_bento_path env.addResponse.uri.uri,
          Event.updateBento name version UploadStatus.DONE none],
       Except.ok env.addResponse.uri.uri)
    | UriType.S3 | UriType.GCS =>
      if env.httpPutStatus ≠ 200 then
        ([Event.getBento name version, Event.addBento name version,
          Event.updateBento name version UploadStatus.UPLOADING (some 0),
          Event.httpPut (presignedOf env.addResponse.uri),
          Event.updateBento name version UploadStatus.ERROR none],
         Except.error (BentoMLError.transfer (uriTypeName env.addResponse.uri.type)
           env.httpPutStatus env.httpPutText))
      else
        ([Event.getBento name version, Event.addBento name version,
          Event.updateBento name version UploadStatus.UPLOADING (some 0),
          Event.httpPut (presignedOf env.addResponse.uri),
          Event.updateBento name version UploadStatus.DONE none],
         Except.ok env.addResponse.uri.uri)
    | UriType.UNSET =>
      ([Event.getBento name version, Event.addBento name version],
       Except.error (BentoMLError.unsupportedUri env.addResponse.uri.type
         env.addResponse.uri.uri))

/-- The upload status the authority holds after a trace: the status of the
last updateBento event, UNINITIALIZED (Pending) when no update RPC was
issued after the bundle was added. -/
def finalUploadStatus (trace : List Event) : UploadStatus :=
  trace.foldl
    (fun s e =>
      match e with
      | Event.updateBento _ _ st _ => st
      | _ => s)
    UploadStatus.UNINITIALIZED

/-- A bundle reference held by the registry: the (name, version) pair the
authority keys bundles by. -/
structure Bento where
  name : String
  version : String
  deriving DecidableEq

/-- Environment of one delete call: which bundle references the injected
GetBento RPC fails for (non-OK status inside BentoRepositoryAPIClient.get,
which raises), and which ones the DangerouslyDeleteBento RPC fails for
(non-OK status, which is only logged). -/
structure DeleteEnv where
  getFails : Bento → Bool
  deleteFails : Bento → Bool

/-- Modelled from the spec: the authority-side list semantics of the
ListBento RPC, which is not part of the client sources under src/.  Section
4.6 of the spec: filter by exact name when a name filter is given, then
apply offset/limit pagination.  Label selectors are not modelled because
every claim about delete exercises labels=None (prune resets labels to
None before the loop). -/
def matching : Option String → List Bento → List Bento
  | none, reg => reg
  | some n, reg => reg.filter (fun b => decide (b.name = n))

/-- Modelled from the spec: one page of the ListBento RPC over the current
registry contents (see matching). -/
def listBentos (reg : List Bento) (nf : Option String) (offset limit : Nat) : List Bento :=
  ((matching nf reg).drop offset).take limit

/-- The predicate form of the name filter: matching nf reg is exactly
reg.filter (namePred nf) (lemma matching_eq_filter). -/
def namePred (nf : Option String) : Bento → Bool :=
  match nf with
  | none => fun _ => true
  | some n => fun b => decide (b.name = n)

/-- BentoRepositoryAPIClient.get (bento_repository_api.py lines 281-313)
as called from _delete_bento_bundle with the tag f-string of a listed
bundle, which always contains the colon separator, so the malformed-tag
branch is vacuous here.  A non-OK GetBento response raises a
BentoMLException; on OK the bundle record is returned. -/
def clientGet (env : DeleteEnv) (b : Bento) : List Event × Except BentoMLError Bento :=
  ([Event.getBento b.name b.version],
   if env.getFails b then Except.error (BentoMLError.getFailed b.name b.version)
   else Except.ok b)

/-- BentoRepositoryAPIClient._delete_bento_bundle (bento_repository_api.py
lines 363-383) with require_confirm at its default False (the
click.confirm prompt is interactive and never reached).  The get call can
raise; the DangerouslyDeleteBento RPC is made, and a non-OK delete status
is logged (logger.error, the "continue to delete the next bentos" comment)
without raising, while an OK status logs success.  The registry effect of
a successful DangerouslyDeleteBento — removal of the referenced bundle —
is modelled from the spec, since the authority implementation is not under
src/. -/
def deleteBentoBundle (env : DeleteEnv) (reg : List Bento) (b : Bento) :
    List Event × Except BentoMLError (List Bento) :=
  match clientGet env b with
  | (ev, Except.error e) => (ev, Except.error e)
  | (ev, Except.ok pb) =>
    if env.deleteFails pb then
      (ev ++ [Event.dangerouslyDeleteBento pb.name pb.version,
              Event.logDeleteError pb.name pb.version],
       Except.ok reg)
    else
      (ev ++ [Event.dangerouslyDeleteBento pb.name pb.version,
              Event.logDeleted pb.name pb.version],
       Except.ok (reg.erase pb))

/-- The inner for-loop of the bulk delete path (bento_repository_api.py
lines 464-467): _delete_bento_bundle on each bundle of the page in order.
An exception from one call propagates (aborting the rest of the page);
otherwise the registry resulting from each deletion threads into the
next. -/
def deletePage (env : DeleteEnv) : List Bento → List Bento → List Event × Except BentoMLError (List Bento)
  | [], reg => ([], Except.ok reg)
  | b :: rest, reg =>
    match deleteBentoBundle env reg b with
    | (ev, Except.error e) => (ev, Except.error e)
    | (ev, Except.ok reg1) =>
      match deletePage env rest reg1 with
      | (ev2, r2) => (ev ++ ev2, r2)

/-- The while-loop of the bulk delete path (bento_repository_api.py lines
451-467): list a page of size 50 at the current offset, advance the offset
by 50, stop when the page is empty, otherwise delete the page and repeat.
The unbounded Python while-loop is modelled with explicit fuel returning
none on exhaustion; bulkDeleteAux_isSome proves the fuel delete supplies
is never exhausted, which is the termination of the loop. -/
def bulkDeleteAux (env : DeleteEnv) (nf : Option String) :
    Nat → Nat → List Bento → List Event → Option (List Event × Except BentoMLError (List Bento))
  | 0, _, _, _ => none
  | fuel + 1, offset, reg, acc =>
    let page := listBentos reg nf offset 50
    if page.isEmpty then some (acc ++ [Event.listBento nf offset 50], Except.ok reg)
    else
      match deletePage env page reg with
      | (ev, Except.error e) =>
        some (acc ++ [Event.listBento nf offset 50] ++ ev, Except.error e)
      | (ev, Except.ok reg1) =>
        bulkDeleteAux env nf fuel (offset + 50) reg1 (acc ++ [Event.listBento nf offset 50] ++ ev)

/-- BentoRepositoryAPIClient.delete (bento_repository_api.py lines
385-467).  Tags are modelled as parsed (name, version) pairs.  The guard
raises the usage error only when bento_tag, bento_name and bento_version
are all three set (lines 422-427); then the bento_tag branch, the
name-and-tag branch (whose guard repeats the bento_tag test, line 432), and
the bulk path, where prune=True resets the name and label filters before
the loop (lines 439-443).  The Python method returns None; the model
returns the resulting registry contents so that the effect on the
authority can be stated.  The labels argument only feeds the unmodelled
label selector of the list RPC (see matching) and is ignored there. -/
def delete (env : DeleteEnv) (reg : List Bento)
    (bento_tag : Option Bento) (labels : Option String)
    (bento_name : Option String) (bento_version : Option String)
    (prune : Bool) :
    Option (List Event × Except BentoMLError (List Bento)) :=
  if bento_tag.isSome && bento_name.isSome && bento_version.isSome then
    some ([], Except.error (BentoMLError.usage "Too much arguments"))
  else if h : bento_tag.isSome then
    some (deleteBentoBundle env reg (bento_tag.get h))
  else if bento_name.isSome && bento_tag.isSome then
    -- dead code: bento_tag.isSome is false on this path (claim C10)
    some (deleteBentoBundle env reg
      { name := bento_name.getD "", version := bento_version.getD "None" })
  else
    let nf := if prune then none else bento_name
    let _lb : Option String := if prune then none else labels
    bulkDeleteAux env nf (reg.length + 1) 0 reg []

/-- Projection of a delete result onto the final registry contents: some
registry when the loop returned normally, none when it raised or (never,
by bulkDeleteAux_isSome) ran out of fuel. -/
def resultRegistry (r : Option (List Event × Except BentoMLError (List Bento))) :
    Option (List Bento) :=
  match r with
  | some (_, Except.ok reg) => some reg
  | _ => none

/-- Storage path selection of BentoRepositoryAPIClient.push
(bento_repository_api.py lines 89-94): the s3 presigned url when non-empty,
else the gcs presigned url when non-empty, else the direct uri. -/
def push_bundle_path (u : BentoUri) : String :=
  if u.s3_presigned_url ≠ "" then u.s3_presigned_url
  else if u.gcs_presigned_url ≠ "" then u.gcs_presigned_url
  else u.uri

/-- Storage path selection of
BentoRepositoryAPIClient.download_to_directory (bento_repository_api.py
lines 271-279), byte for byte the same field preference as push. -/
def download_bundle_path (u : BentoUri) : String :=
  if u.s3_presigned_url ≠ "" then u.s3_presigned_url
  else if u.gcs_presigned_url ≠ "" then u.gcs_presigned_url
  else u.uri

/-- Python str.split(sep) on the character list of the string: splits at
every occurrence of the one-character separator; the empty string yields
one empty group, and adjacent separators yield empty groups, exactly as in
Python. -/
def splitOnChar (sep : Char) : List Char → List (List Char)
  | [] => [[]]
  | c :: rest =>
    match splitOnChar sep rest with
    | [] => if c = sep then [[], []] else [[c]]
    | g :: gs => if c = sep then [] :: g :: gs else (c :: g) :: gs

/-- Python str.split(sep) for a one-character separator, as a function on
String. -/
def pySplit (sep : Char) (s : String) : List String :=
  (splitOnChar sep s.data).map String.mk

/-- Python str.strip(): remove leading and trailing whitespace. -/
def pyStrip (s : String) : String :=
  String.mk (((s.data.dropWhile Char.isWhitespace).reverse.dropWhile Char.isWhitespace).reverse)

/-- Python dict assignment result[key] = value: replace the value in place
when the key is present (preserving insertion order), append otherwise.
The dict of parse_key_value_pairs is modelled as an ordered association
list. -/
def dictSet (d : List (String × String)) (k v : String) : List (String × String) :=
  if d.any (fun kv => decide (kv.1 = k)) then
    d.map (fun kv => if kv.1 = k then (k, v) else kv)
  else d ++ [(k, v)]

/-- Python dict lookup result[key]: the value of the (unique) entry with
the given key, as the first matching entry of the association list. -/
def dictGet (d : List (String × String)) (k : String) : Option String :=
  (d.find? (fun kv => decide (kv.1 = k))).map Prod.snd

/-- The token loop of parse_key_value_pairs (cli/utils.py lines 92-98).
Python unpacking key, value = pair.split(sep) succeeds exactly when the
split yields two parts, i.e. when the token contains exactly one
separator; any other arity raises ValueError.  str.split with no maxsplit
splits at every occurrence, and str.strip is String.trim.  The
duplicate-key warning log is a side effect with no bearing on the result
and is not recorded. -/
def parseTokens : List String → List (String × String) → Except String (List (String × String))
  | [], acc => Except.ok acc
  | tok :: rest, acc =>
    match pySplit '=' tok with
    | [k, v] => parseTokens rest (dictSet acc (pyStrip k) (pyStrip v))
    | _ => Except.error "ValueError: unpack"

/-- parse_key_value_pairs (cli/utils.py lines 89-99): an empty (falsy)
input yields the empty dict, otherwise the comma-separated tokens are
folded through parseTokens. -/
def parse_key_value_pairs (s : String) : Except String (List (String × String)) :=
  if s = "" then Except.ok [] else parseTokens (pySplit ',' s) []

/-- An upload environment on the happy preflight path (Get NOT_FOUND, Add
OK) whose allocated uri has the UNSET storage type the client supports no
branch for. -/
def envBadUriType : UploadEnv :=
  { getStatus := { status_code := 5, error_message := "" }
    addResponse :=
      { status := { status_code := 0, error_message := "" }
        uri := { type := UriType.UNSET, uri := "u", s3_presigned_url := "", gcs_presigned_url := "" } }
    destExists := false
    httpPutStatus := 200
    httpPutText := "" }

/-- An upload environment dispatching to S3 whose presigned PUT answers
201 Created: a success-class HTTP response that is not exactly 200. -/
def envPut201 : UploadEnv :=
  { getStatus := { status_code := 5, error_message := "" }
    addResponse :=
      { status := { status_code := 0, error_message := "" }
        uri := { type := UriType.S3, uri := "s3://b/k", s3_presigned_url := "https://p", gcs_presigned_url := "" } }
    destExists := false
    httpPutStatus := 201
    httpPutText := "created" }

/-- An upload environment whose GetBento preflight reports the reference
already registered (status OK). -/
def envGetOK : UploadEnv :=
  { getStatus := { status_code := 0, error_message := "" }
    addResponse :=
      { status := { status_code := 0, error_message := "" }
        uri := { type := UriType.LOCAL, uri := "d", s3_presigned_url := "", gcs_presigned_url := "" } }
    destExists := false
    httpPutStatus := 200
    httpPutText := "" }

/-- An upload environment whose GetBento preflight reports an opaque
authority failure (code 13, neither OK nor NOT_FOUND). -/
def envGetOther : UploadEnv :=
  { getStatus := { status_code := 13, error_message := "boom" }
    addResponse :=
      { status := { status_code := 0, error_message := "" }
        uri := { type := UriType.LOCAL, uri := "d", s3_presigned_url := "", gcs_presigned_url := "" } }
    destExists := false
    httpPutStatus := 200
    httpPutText := "" }

/-- An upload environment dispatching to a LOCAL uri whose destination
directory already exists. -/
def envLocal : UploadEnv :=
  { getStatus := { status_code := 5, error_message := "" }
    addResponse :=
      { status := { status_code := 0, error_message := "" }
        uri := { type := UriType.LOCAL, uri := "/repo/demo/1", s3_presigned_url := "", gcs_presigned_url := "" } }
    destExists := true
    httpPutStatus := 200
    httpPutText := "" }

/-- An upload environment dispatching to GCS whose presigned PUT answers
200. -/
def envPut200 : UploadEnv :=
  { getStatus := { status_code := 5, error_message := "" }
    addResponse :=
      { status := { status_code := 0, error_message := "" }
        uri := { type := UriType.GCS, uri := "gs://b/k", s3_presigned_url := "", gcs_presigned_url := "https://g" } }
    destExists := false
    httpPutStatus := 200
    httpPutText := "ok" }

/-- A delete environment where every injected RPC succeeds. -/
def envNoFail : DeleteEnv :=
  { getFails := fun _ => false, deleteFails := fun _ => false }

/-- A delete environment where GetBento fails for every bundle at version
"1" and every DangerouslyDeleteBento succeeds. -/
def envGetFail1 : DeleteEnv :=
  { getFails := fun b => decide (b.version = "1"), deleteFails := fun _ => false }

/-- A registry holding 51 bundles named "b", versions "0" through "50":
one more bundle than the fixed page size of the bulk delete loop. -/
def reg51 : List Bento :=
  (List.range 51).map (fun i => { name := "b", version := toString i })

/-- A registry holding 51 versions of the single name "m". -/
def reg51m : List Bento :=
  (List.range 51).map (fun i => { name := "m", version := toString i })

/-- C3: for every bundle whose (name, version) reference is already
registered at the authority (Get returns OK), upload raises the
already-registered domain error with a trace holding only the GetBento
call — so before the Add RPC and with zero backend writes (no copytree,
rmtree or httpPut event); and when Get returns any code other than OK or
NOT_FOUND, upload fails with the authority error, again with only the
GetBento call in the trace. -/
theorem upload_preflight_rejects (env : UploadEnv) (name version path : String) :
    (env.getStatus.status_code = statusOK →
      upload_from_dir env name version path =
        ([Event.getBento name version],
         Except.error (BentoMLError.alreadyRegistered name version))) ∧
    (env.getStatus.status_code ≠ statusOK → env.getStatus.status_code ≠ statusNotFound →
      upload_from_dir env name version path =
        ([Event.getBento name version],
         Except.error (BentoMLError.authorityAccess env.getStatus.status_code
           env.getStatus.error_message))) := by
  constructor
  · intro h
    simp [upload_from_dir, h, statusOK]
  · intro h1 h2
    simp [upload_from_dir, h1, h2]

theorem upload_preflight_rejects_witness :
    upload_from_dir envGetOK "n" "v" "p" =
      ([Event.getBento "n" "v"], Except.error (BentoMLError.alreadyRegistered "n" "v")) ∧
    upload_from_dir envGetOther "n" "v" "p" =
      ([Event.getBento "n" "v"], Except.error (BentoMLError.authorityAccess 13 "boom")) :=
  ⟨(upload_preflight_rejects envGetOK "n" "v" "p").1 rfl,
   (upload_preflight_rejects envGetOther "n" "v" "p").2 (by decide) (by decide)⟩

/-- C7: an upload dispatched to a Local backend removes the destination
directory exactly when it already exists, then recursively copies the
source tree there, then sets status DONE, and returns the
authority-reported destination uri. -/
theorem upload_local_replace_copy (env : UploadEnv) (name version path : String)
    (hget : env.getStatus.status_code = statusNotFound)
    (hadd : env.addResponse.status.status_code = statusOK)
    (hloc : env.addResponse.uri.type = UriType.LOCAL) :
    upload_from_dir env name version path =
      ([Event.getBento name version, Event.addBento name version] ++
        (if env.destExists then [Event.rmtree env.addResponse.uri.uri] else []) ++
        [Event.copytree path env.addResponse.uri.uri,
         Event.updateBento name version UploadStatus.DONE none],
       Except.ok env.addResponse.uri.uri) := by
  simp [upload_from_dir, hget, hadd, hloc, statusOK, statusNotFound]

theorem upload_local_replace_copy_witness :
    upload_from_dir envLocal "demo" "1.0.0" "/tmp/src" =
      ([Event.getBento "demo" "1.0.0", Event.addBento "demo" "1.0.0",
        Event.rmtree "/repo/demo/1", Event.copytree "/tmp/src" "/repo/demo/1",
        Event.updateBento "demo" "1.0.0" UploadStatus.DONE none],
       Except.ok "/repo/demo/1") :=
  upload_local_replace_copy envLocal "demo" "1.0.0" "/tmp/src" rfl rfl rfl

/-- C2 (amended): for every upload whose allocated uri has one of the
three supported storage types, the status recorded at the authority after
the call is exactly DONE or ERROR; the unsupported-uri-type failure path
refutes the unrestricted claim (see upload_unsupported_uri_pending). -/
theorem upload_terminal_status_supported (env : UploadEnv) (name version path : String)
    (hget : env.getStatus.status_code = statusNotFound)
    (hadd : env.addResponse.status.status_code = statusOK)
    (hsup : env.addResponse.uri.type = UriType.LOCAL ∨
      env.addResponse.uri.type = UriType.S3 ∨ env.addResponse.uri.type = UriType.GCS) :
    finalUploadStatus (upload_from_dir env name version path).1 = UploadStatus.DONE ∨
    finalUploadStatus (upload_from_dir env name version path).1 = UploadStatus.ERROR := by
  rcases hsup with h | h | h
  · left
    cases hd : env.destExists <;>
      simp [upload_from_dir, hget, hadd, h, hd, statusOK, statusNotFound, finalUploadStatus]
  · by_cases hp : env.httpPutStatus = 200
    · left
      simp [upload_from_dir, hget, hadd, h, hp, statusOK, statusNotFound, finalUploadStatus]
    · right
      simp [upload_from_dir, hget, hadd, h, hp, statusOK, statusNotFound, finalUploadStatus]
  · by_cases hp : env.httpPutStatus = 200
    · left
      simp [upload_from_dir, hget, hadd, h, hp, statusOK, statusNotFound, finalUploadStatus]
    · right
      simp [upload_from_dir, hget, hadd, h, hp, statusOK, statusNotFound, finalUploadStatus]

theorem upload_terminal_status_supported_witness :
    finalUploadStatus (upload_from_dir envLocal "demo" "1.0.0" "/tmp/src").1 = UploadStatus.DONE ∨
    finalUploadStatus (upload_from_dir envLocal "demo" "1.0.0" "/tmp/src").1 = UploadStatus.ERROR :=
  upload_terminal_status_supported envLocal "demo" "1.0.0" "/tmp/src" rfl rfl (Or.inl rfl)

/-- C2 (counterexample): on the happy preflight path with an allocated uri
of unsupported storage type, upload_from_dir raises after the AddBento RPC
without issuing any status update, leaving the authority status
UNINITIALIZED (Pending) — not DONE or ERROR. -/
theorem upload_unsupported_uri_pending :
    (upload_from_dir envBadUriType "n" "v" "p").2 =
      Except.error (BentoMLError.unsupportedUri UriType.UNSET "u") ∧
    Event.addBento "n" "v" ∈ (upload_from_dir envBadUriType "n" "v" "p").1 ∧
    finalUploadStatus (upload_from_dir envBadUriType "n" "v" "p").1 =
      UploadStatus.UNINITIALIZED := by
  decide

/-- C6 (amended): for every remote upload, an HTTP response other than
exactly 200 leads to a trace whose final event sets status ERROR followed
by a raised transfer error carrying the HTTP status code and response
body; a 200 response leads to a DONE status update and a normal return of
the uri.  (The code tests status_code != 200, not the 2xx class; see
upload_put_201_sets_error.) -/
theorem upload_remote_http_outcome (env : UploadEnv) (name version path : String)
    (hget : env.getStatus.status_code = statusNotFound)
    (hadd : env.addResponse.status.status_code = statusOK)
    (hrem : env.addResponse.uri.type = UriType.S3 ∨ env.addResponse.uri.type = UriType.GCS) :
    (env.httpPutStatus ≠ 200 →
      upload_from_dir env name version path =
        ([Event.getBento name version, Event.addBento name version,
          Event.updateBento name version UploadStatus.UPLOADING (some 0),
          Event.httpPut (presignedOf env.addResponse.uri),
          Event.updateBento name version UploadStatus.ERROR none],
         Except.error (BentoMLError.transfer (uriTypeName env.addResponse.uri.type)
           env.httpPutStatus env.httpPutText))) ∧
    (env.httpPutStatus = 200 →
      upload_from_dir env name version path =
        ([Event.getBento name version, Event.addBento name version,
          Event.updateBento name version UploadStatus.UPLOADING (some 0),
          Event.httpPut (presignedOf env.addResponse.uri),
          Event.updateBento name version UploadStatus.DONE none],
         Except.ok env.addResponse.uri.uri)) := by
  constructor
  · intro hp
    rcases hrem with h | h <;>
      simp [upload_from_dir, hget, hadd, h, hp, statusOK, statusNotFound]
  · intro hp
    rcases hrem with h | h <;>
      simp [upload_from_dir, hget, hadd, h, hp, statusOK, statusNotFound]

theorem upload_remote_http_outcome_witness :
    upload_from_dir envPut201 "n" "v" "p" =
      ([Event.getBento "n" "v", Event.addBento "n" "v",
        Event.updateBento "n" "v" UploadStatus.UPLOADING (some 0),
        Event.httpPut "https://p",
        Event.updateBento "n" "v" UploadStatus.ERROR none],
       Except.error (BentoMLError.transfer "S3" 201 "created")) ∧
    upload_from_dir envPut200 "n" "v" "p" =
      ([Event.getBento "n" "v", Event.addBento "n" "v",
        Event.updateBento "n" "v" UploadStatus.UPLOADING (some 0),
        Event.httpPut "https://g",
        Event.updateBento "n" "v" UploadStatus.DONE none],
       Except.ok "gs://b/k") :=
  ⟨(upload_remote_http_outcome envPut201 "n" "v" "p" rfl rfl (Or.inl rfl)).1 (by decide),
   (upload_remote_http_outcome envPut200 "n" "v" "p" rfl rfl (Or.inr rfl)).2 rfl⟩

/-- C6 (counterexample): a 201 Created response — a 2xx success class
response — is treated as a failure: status is set to ERROR and a transfer
error is raised, refuting that every 2xx response leads to DONE and a
normal return. -/
theorem upload_put_201_sets_error :
    (upload_from_dir envPut201 "n" "v" "p").2 =
      Except.error (BentoMLError.transfer "S3" 201 "created") ∧
    finalUploadStatus (upload_from_dir envPut201 "n" "v" "p").1 = UploadStatus.ERROR := by
  decide

/-- C8: both push and download_to_directory resolve the bundle location
with the same preference: the ObjectStoreA (s3) presigned field when
non-empty, else the ObjectStoreB (gcs) presigned field when non-empty,
else the direct uri. -/
theorem storage_path_preference (u : BentoUri) :
    download_bundle_path u = push_bundle_path u ∧
    (u.s3_presigned_url ≠ "" → push_bundle_path u = u.s3_presigned_url) ∧
    (u.s3_presigned_url = "" → u.gcs_presigned_url ≠ "" →
      push_bundle_path u = u.gcs_presigned_url) ∧
    (u.s3_presigned_url = "" → u.gcs_presigned_url = "" →
      push_bundle_path u = u.uri) := by
  refine ⟨rfl, ?_, ?_, ?_⟩ <;> intros <;> simp [push_bundle_path, *]

theorem storage_path_preference_witness :
    push_bundle_path { type := UriType.S3, uri := "u", s3_presigned_url := "s", gcs_presigned_url := "g" } = "s" ∧
    push_bundle_path { type := UriType.GCS, uri := "u", s3_presigned_url := "", gcs_presigned_url := "g" } = "g" ∧
    push_bundle_path { type := UriType.LOCAL, uri := "u", s3_presigned_url := "", gcs_presigned_url := "" } = "u" :=
  ⟨(storage_path_preference _).2.1 (by decide),
   (storage_path_preference _).2.2.1 rfl (by decide),
   (storage_path_preference _).2.2.2 rfl rfl⟩

/-- The name filter of the modelled list RPC as a List.filter. -/
theorem matching_eq_filter (nf : Option String) (reg : List Bento) :
    matching nf reg = reg.filter (namePred nf) := by
  cases nf <;> simp [matching, namePred, List.filter_true]

/-- Erasing the head of a filtered list from the base list filters to the
tail: if reg.filter p = b :: rest then (reg.erase b).filter p = rest. -/
theorem filter_erase_of_filter_eq_cons (p : Bento → Bool) :
    ∀ (reg : List Bento) (b : Bento) (rest : List Bento),
      reg.filter p = b :: rest → (reg.erase b).filter p = rest := by
  intro reg
  induction reg with
  | nil => intro b rest h; simp at h
  | cons x xs ih =>
    intro b rest h
    by_cases hp : p x
    · rw [List.filter_cons_of_pos hp] at h
      obtain ⟨rfl, hrest⟩ : x = b ∧ xs.filter p = rest := by
        exact ⟨(List.cons.injEq _ _ _ _ ▸ h).1, (List.cons.injEq _ _ _ _ ▸ h).2⟩
      simpa [List.erase_cons_head, List.filter_cons_of_pos hp] using hrest
    · rw [List.filter_cons_of_neg (by simpa using hp)] at h
      have hb : p b := by
        have : b ∈ xs.filter p := h ▸ List.mem_cons_self b rest
        exact (List.mem_filter.mp this).2
      have hxb : x ≠ b := fun hx => hp (hx ▸ hb)
      rw [List.erase_cons_tail (by simpa using hxb)]
      rw [List.filter_cons_of_neg (by simpa using hp)]
      exact ih b rest h

/-- A successful _delete_bento_bundle leaves the registry a sublist of
what it was: either unchanged (delete RPC failure, logged) or with the
bundle erased. -/
theorem deleteBentoBundle_sublist (env : DeleteEnv) (reg : List Bento) (b : Bento)
    (ev : List Event) (reg1 : List Bento)
    (h : deleteBentoBundle env reg b = (ev, Except.ok reg1)) : reg1.Sublist reg := by
  by_cases hg : env.getFails b
  · simp [deleteBentoBundle, clientGet, hg] at h
  · by_cases hd : env.deleteFails b
    · simp [deleteBentoBundle, clientGet, hg, hd] at h
      exact h.2 ▸ List.Sublist.refl reg
    · simp [deleteBentoBundle, clientGet, hg, hd] at h
      exact h.2 ▸ List.erase_sublist b reg

/-- A page of deletions that returns normally leaves the registry a
sublist of what it was. -/
theorem deletePage_sublist (env : DeleteEnv) :
    ∀ (page reg : List Bento) (ev : List Event) (reg1 : List Bento),
      deletePage env page reg = (ev, Except.ok reg1) → reg1.Sublist reg := by
  intro page
  induction page with
  | nil =>
    intro reg ev reg1 h
    simp [deletePage] at h
    exact h.2 ▸ List.Sublist.refl reg
  | cons b rest ih =>
    intro reg ev reg1 h
    rcases hdb : deleteBentoBundle env reg b with ⟨ev1, r1⟩
    rw [deletePage, hdb] at h
    cases r1 with
    | error e => simp at h
    | ok reg2 =>
      rcases hdp : deletePage env rest reg2 with ⟨ev2, r2⟩
      simp only at h
      rw [hdp] at h
      simp at h
      cases r2 with
      | error e => simp at h
      | ok reg3 =>
        have h3 : reg3 = reg1 := by simpa using h.2
        exact ((h3 ▸ ih reg2 ev2 reg3 hdp).trans (deleteBentoBundle_sublist env reg b ev1 reg2 hdb))

/-- The name filter preserves the sublist relation between registries. -/
theorem matching_sublist (nf : Option String) {reg1 reg : List Bento}
    (h : reg1.Sublist reg) : (matching nf reg1).Sublist (matching nf reg) := by
  cases nf with
  | none => exact h
  | some n => exact h.filter _

/-- Termination of the bulk delete loop: with fuel exceeding the number of
matching bundles beyond the current offset, the loop never exhausts its
fuel, for every injected failure pattern.  The offset advances by the page
size each iteration while the matching set never grows, so the loop always
reaches an empty page (or raises). -/
theorem bulkDeleteAux_isSome (env : DeleteEnv) (nf : Option String) :
    ∀ (fuel offset : Nat) (reg : List Bento) (acc : List Event),
      (matching nf reg).length < offset + (fuel + 1) →
      (bulkDeleteAux env nf (fuel + 1) offset reg acc).isSome := by
  intro fuel
  induction fuel with
  | zero =>
    intro offset reg acc h
    have hle : (matching nf reg).length ≤ offset := Nat.lt_succ_iff.mp h
    have hpage : listBentos reg nf offset 50 = [] := by
      simp [listBentos, List.drop_eq_nil_of_le hle]
    simp [bulkDeleteAux, hpage]
  | succ fuel ih =>
    intro offset reg acc h
    by_cases hpage : (listBentos reg nf offset 50).isEmpty
    · simp [bulkDeleteAux, hpage]
    · rcases hdp : deletePage env (listBentos reg nf offset 50) reg with ⟨ev, r⟩
      cases r with
      | error e => simp [bulkDeleteAux, hpage, hdp]
      | ok reg1 =>
        have hsub : reg1.Sublist reg := deletePage_sublist env _ _ _ _ hdp
        have hlen : (matching nf reg1).length ≤ (matching nf reg).length :=
          (matching_sublist nf hsub).length_le
        simp only [bulkDeleteAux, hdp]
        rw [if_neg (by simpa using hpage)]
        exact ih (offset + 50) reg1 _ (by omega)

/-- A loop iteration whose page is empty returns the registry unchanged. -/
theorem bulkDeleteAux_empty_page (env : DeleteEnv) (nf : Option String)
    (fuel offset : Nat) (reg : List Bento) (acc : List Event)
    (h : (matching nf reg).length ≤ offset) :
    bulkDeleteAux env nf (fuel + 1) offset reg acc =
      some (acc ++ [Event.listBento nf offset 50], Except.ok reg) := by
  have hpage : listBentos reg nf offset 50 = [] := by
    simp [listBentos, List.drop_eq_nil_of_le h]
  simp [bulkDeleteAux, hpage]

/-- When no injected GetBento failure occurs, a page of deletions always
returns normally, the DangerouslyDeleteBento RPC is issued for every
bundle of the page — even when the RPC fails for earlier bundles — and
every failed delete RPC is logged. -/
theorem deletePage_ok (env : DeleteEnv) (hg : ∀ b, env.getFails b = false) :
    ∀ (page reg : List Bento),
      ∃ ev reg1, deletePage env page reg = (ev, Except.ok reg1) ∧
        ∀ b ∈ page, Event.dangerouslyDeleteBento b.name b.version ∈ ev ∧
          (env.deleteFails b = true → Event.logDeleteError b.name b.version ∈ ev) := by
  intro page
  induction page with
  | nil => intro reg; exact ⟨[], reg, rfl, by simp⟩
  | cons b rest ih =>
    intro reg
    by_cases hd : env.deleteFails b
    · obtain ⟨ev, reg1, heq, hmem⟩ := ih reg
      refine ⟨[Event.getBento b.name b.version, Event.dangerouslyDeleteBento b.name b.version,
        Event.logDeleteError b.name b.version] ++ ev, reg1, ?_, ?_⟩
      · simp [deletePage, deleteBentoBundle, clientGet, hg b, hd, heq]
      · intro c hc
        rcases List.mem_cons.mp hc with rfl | hc
        · exact ⟨by simp, fun _ => by simp⟩
        · exact ⟨by simp [(hmem c hc).1], fun hdc => by simp [(hmem c hc).2 hdc]⟩
    · obtain ⟨ev, reg1, heq, hmem⟩ := ih (reg.erase b)
      refine ⟨[Event.getBento b.name b.version, Event.dangerouslyDeleteBento b.name b.version,
        Event.logDeleted b.name b.version] ++ ev, reg1, ?_, ?_⟩
      · simp [deletePage, deleteBentoBundle, clientGet, hg b, hd, heq]
      · intro c hc
        rcases List.mem_cons.mp hc with rfl | hc
        · exact ⟨by simp, fun hdc => absurd hdc hd⟩
        · exact ⟨by simp [(hmem c hc).1], fun hdc => by simp [(hmem c hc).2 hdc]⟩

/-- When no injected GetBento failure occurs, the bulk delete loop returns
normally (never raises) for every fuel large enough, every delete-RPC
failure pattern included. -/
theorem bulkDeleteAux_ok (env : DeleteEnv) (hg : ∀ b, env.getFails b = false)
    (nf : Option String) :
    ∀ (fuel offset : Nat) (reg : List Bento) (acc : List Event),
      (matching nf reg).length < offset + (fuel + 1) →
      ∃ ev reg1, bulkDeleteAux env nf (fuel + 1) offset reg acc =
        some (ev, Except.ok reg1) := by
  intro fuel
  induction fuel with
  | zero =>
    intro offset reg acc h
    exact ⟨_, reg, bulkDeleteAux_empty_page env nf 0 offset reg acc (Nat.lt_succ_iff.mp h)⟩
  | succ fuel ih =>
    intro offset reg acc h
    by_cases hpage : (listBentos reg nf offset 50).isEmpty
    · exact ⟨acc ++ [Event.listBento nf offset 50], reg, by simp [bulkDeleteAux, hpage]⟩
    · obtain ⟨ev, reg1, heq, _⟩ := deletePage_ok env hg (listBentos reg nf offset 50) reg
      have hsub : reg1.Sublist reg := deletePage_sublist env _ _ _ _ heq
      have hlen : (matching nf reg1).length ≤ (matching nf reg).length :=
        (matching_sublist nf hsub).length_le
      obtain ⟨ev2, reg2, h2⟩ := ih (offset + 50) reg1
        (acc ++ [Event.listBento nf offset 50] ++ ev) (by omega)
      refine ⟨ev2, reg2, ?_⟩
      simp only [bulkDeleteAux, heq]
      rw [if_neg (by simpa using hpage)]
      exact h2

/-- When neither injected RPC ever fails, deleting exactly the bundles of
reg.filter p (in order) from reg returns normally and leaves a registry
with no bundle satisfying p. -/
theorem deletePage_clears (env : DeleteEnv) (hg : ∀ b, env.getFails b = false)
    (hd : ∀ b, env.deleteFails b = false) (p : Bento → Bool) :
    ∀ (page reg : List Bento), reg.filter p = page →
      ∃ ev reg1, deletePage env page reg = (ev, Except.ok reg1) ∧ reg1.filter p = [] := by
  intro page
  induction page with
  | nil => intro reg hreg; exact ⟨[], reg, rfl, hreg⟩
  | cons b rest ih =>
    intro reg hreg
    obtain ⟨ev, reg1, heq, hfil⟩ :=
      ih (reg.erase b) (filter_erase_of_filter_eq_cons p reg b rest hreg)
    refine ⟨[Event.getBento b.name b.version, Event.dangerouslyDeleteBento b.name b.version,
      Event.logDeleted b.name b.version] ++ ev, reg1, ?_, hfil⟩
    simp [deletePage, deleteBentoBundle, clientGet, hg b, hd b, heq]

/-- When neither injected RPC ever fails and at most one page matches the
filter, the bulk delete loop returns normally with every matching bundle
deleted. -/
theorem bulkDelete_clears (env : DeleteEnv) (hg : ∀ b, env.getFails b = false)
    (hd : ∀ b, env.deleteFails b = false) (nf : Option String) (reg : List Bento)
    (hlen : (matching nf reg).length ≤ 50) :
    ∃ ev reg1, bulkDeleteAux env nf (reg.length + 1) 0 reg [] =
      some (ev, Except.ok reg1) ∧ matching nf reg1 = [] := by
  have hpage : listBentos reg nf 0 50 = matching nf reg := by
    simp [listBentos, List.take_of_length_le hlen]
  by_cases hemp : (matching nf reg).length = 0
  · refine ⟨_, reg, bulkDeleteAux_empty_page env nf reg.length 0 reg [] (by omega), ?_⟩
    exact List.length_eq_zero.mp hemp
  · obtain ⟨ev, reg1, heq, hfil⟩ :=
      deletePage_clears env hg hd (namePred nf) (matching nf reg) reg
        (matching_eq_filter nf reg).symm
    have hm1 : matching nf reg1 = [] := by rw [matching_eq_filter]; exact hfil
    have hrlen : reg.length ≠ 0 := by
      intro h0
      rw [List.length_eq_zero.mp h0] at hemp
      cases nf <;> simp [matching] at hemp
    obtain ⟨m, hm⟩ := Nat.exists_eq_succ_of_ne_zero hrlen
    have hne : ¬((matching nf reg).isEmpty = true) := by
      intro hx
      exact hemp (by rw [List.isEmpty_iff.mp hx]; rfl)
    refine ⟨([] ++ [Event.listBento nf 0 50] ++ ev) ++ [Event.listBento nf 50 50], reg1, ?_, hm1⟩
    rw [hm]
    show bulkDeleteAux env nf (m + 1 + 1) 0 reg [] = _
    simp only [bulkDeleteAux, hpage, heq]
    rw [if_neg hne]
    exact bulkDeleteAux_empty_page env nf m 50 reg1 ([] ++ [Event.listBento nf 0 50] ++ ev)
      (by rw [hm1]; simp)

/-- C1 (amended): bulk delete with prune=true terminates for every
registry and every injected failure pattern (the loop pages by 50 from
offset 0, advancing the offset after each page, stopping on an empty
page); with no injected failures it leaves the registry empty when at
most one page (50 bundles) exists — but not in general, because the
advanced offset skips bundles shifted down by the deletions (see
bulk_delete_prune_skips_51). -/
theorem bulk_delete_prune_pages :
    (∀ (env : DeleteEnv) (reg : List Bento),
      (delete env reg none none none none true).isSome) ∧
    (∀ (env : DeleteEnv) (reg : List Bento),
      (∀ b, env.getFails b = false) → (∀ b, env.deleteFails b = false) →
      reg.length ≤ 50 →
      ∃ ev, delete env reg none none none none true = some (ev, Except.ok [])) := by
  constructor
  · intro env reg
    have h := bulkDeleteAux_isSome env none reg.length 0 reg []
      (by simp [matching])
    simpa [delete] using h
  · intro env reg hg hd hlen
    obtain ⟨ev, reg1, heq, hm⟩ := bulkDelete_clears env hg hd none reg (by simpa [matching])
    have hnil : reg1 = [] := by simpa [matching] using hm
    refine ⟨ev, ?_⟩
    rw [hnil] at heq
    simpa [delete] using heq

theorem bulk_delete_prune_pages_witness :
    ∃ ev, delete envNoFail [{ name := "a", version := "1" }] none none none none true =
      some (ev, Except.ok []) :=
  bulk_delete_prune_pages.2 envNoFail [{ name := "a", version := "1" }]
    (fun _ => rfl) (fun _ => rfl) (by decide)

/-- C1 (counterexample): on a registry of 51 bundles with no injected
failures, bulk delete with prune=true terminates but leaves one bundle —
the 51st — because the offset advanced to 50 while the 50 deletions of
the first page shifted the survivor down to offset 0, so the second query
returns an empty page.  The claim predicts an empty registry. -/
theorem bulk_delete_prune_skips_51 :
    resultRegistry (delete envNoFail reg51 none none none none true) =
      some [{ name := "b", version := "50" }] ∧
    resultRegistry (delete envNoFail reg51 none none none none true) ≠
      some [] := by
  decide

/-- C4 (amended): the usage error is raised with an empty trace — before
any RPC — when an exact reference (bento_tag) and a full name/version
pair are all supplied; other multi-selector combinations are not
rejected: the bento_tag branch silently takes precedence (see
delete_tag_and_name_not_rejected). -/
theorem delete_selector_guard (env : DeleteEnv) (reg : List Bento)
    (t : Bento) (l : Option String) (n v : String) (prune : Bool) :
    delete env reg (some t) l (some n) (some v) prune =
      some ([], Except.error (BentoMLError.usage "Too much arguments")) := by
  simp [delete]

/-- C4 (counterexample): supplying both an exact reference and a
name-only selector (two selector modes, no version) is not rejected: no
usage error is raised, the tag branch runs, and its RPCs are made. -/
theorem delete_tag_and_name_not_rejected :
    delete envNoFail [{ name := "a", version := "1" }]
        (some { name := "a", version := "1" }) none (some "b") none false =
      some ([Event.getBento "a" "1", Event.dangerouslyDeleteBento "a" "1",
        Event.logDeleted "a" "1"], Except.ok []) ∧
    delete envNoFail [{ name := "a", version := "1" }]
        (some { name := "a", version := "1" }) none (some "b") none false ≠
      some ([], Except.error (BentoMLError.usage "Too much arguments")) := by
  decide

/-- C9 (amended): when the per-bundle GetBento calls succeed, a failed
DangerouslyDeleteBento RPC is logged and does not abort the page — the
delete RPC is issued for every bundle of the page regardless of earlier
failures — and the bulk delete loop always returns normally; a failure of
the per-bundle GetBento, by contrast, raises out of the loop (see
bulk_delete_get_failure_aborts). -/
theorem bulk_delete_continues_past_rpc_failure (env : DeleteEnv)
    (hg : ∀ b, env.getFails b = false) :
    (∀ (page reg : List Bento),
      ∃ ev reg1, deletePage env page reg = (ev, Except.ok reg1) ∧
        ∀ b ∈ page, Event.dangerouslyDeleteBento b.name b.version ∈ ev ∧
          (env.deleteFails b = true → Event.logDeleteError b.name b.version ∈ ev)) ∧
    (∀ reg : List Bento,
      ∃ ev reg1, delete env reg none none none none true =
        some (ev, Except.ok reg1)) := by
  refine ⟨deletePage_ok env hg, fun reg => ?_⟩
  obtain ⟨ev, reg1, h⟩ := bulkDeleteAux_ok env hg none reg.length 0 reg []
    (by simp [matching])
  exact ⟨ev, reg1, by simpa [delete] using h⟩

theorem bulk_delete_continues_past_rpc_failure_witness :
    ∃ ev reg1,
      delete envNoFail [{ name := "a", version := "1" }] none none none none true =
        some (ev, Except.ok reg1) :=
  (bulk_delete_continues_past_rpc_failure envNoFail (fun _ => rfl)).2
    [{ name := "a", version := "1" }]

/-- C9 (counterexample): a GetBento failure injected for the first bundle
of a two-bundle page raises out of the bulk delete: the loop ends with
the exception, and no delete RPC is ever issued for the second bundle. -/
theorem bulk_delete_get_failure_aborts :
    delete envGetFail1
        [{ name := "a", version := "1" }, { name := "a", version := "2" }]
        none none none none true =
      some ([Event.listBento none 0 50, Event.getBento "a" "1"],
        Except.error (BentoMLError.getFailed "a" "1")) ∧
    Event.dangerouslyDeleteBento "a" "2" ∉
      [Event.listBento none 0 50, Event.getBento "a" "1"] := by
  decide

/-- C10 (amended): calling delete with bento_name and bento_version both
set but bento_tag unset ignores the version: the call reduces to the bulk
delete loop filtered by name only, identically to the same call with no
version (the name-plus-version branch is dead, its guard requiring
bento_tag too); the listed versions of the name are deleted regardless of
the supplied version — all of them when at most 50 exist and no RPC
fails, though not in general (see delete_name_version_leaves_version). -/
theorem delete_name_ignores_version :
    (∀ (env : DeleteEnv) (reg : List Bento) (l : Option String) (n v : String),
      delete env reg none l (some n) (some v) false =
        bulkDeleteAux env (some n) (reg.length + 1) 0 reg []) ∧
    (∀ (env : DeleteEnv) (reg : List Bento) (l : Option String) (n v : String),
      delete env reg none l (some n) (some v) false =
        delete env reg none l (some n) none false) ∧
    (∀ (env : DeleteEnv) (reg : List Bento) (n v : String),
      (∀ b, env.getFails b = false) → (∀ b, env.deleteFails b = false) →
      (matching (some n) reg).length ≤ 50 →
      ∃ ev reg1, delete env reg none none (some n) (some v) false =
        some (ev, Except.ok reg1) ∧
        reg1.filter (fun b => decide (b.name = n)) = []) := by
  have hred : ∀ (env : DeleteEnv) (reg : List Bento) (l : Option String)
      (n : String) (v : Option String),
      delete env reg none l (some n) v false =
        bulkDeleteAux env (some n) (reg.length + 1) 0 reg [] := by
    intro env reg l n v
    simp [delete]
  refine ⟨fun env reg l n v => hred env reg l n (some v),
    fun env reg l n v => by rw [hred env reg l n (some v), hred env reg l n none],
    fun env reg n v hg hd hlen => ?_⟩
  obtain ⟨ev, reg1, heq, hm⟩ := bulkDelete_clears env hg hd (some n) reg hlen
  refine ⟨ev, reg1, ?_, by simpa [matching] using hm⟩
  rw [hred env reg none n (some v)]
  exact heq

theorem delete_name_ignores_version_witness :
    ∃ ev reg1,
      delete envNoFail [{ name := "m", version := "1" }] none none (some "m") (some "7") false =
        some (ev, Except.ok reg1) ∧
      reg1.filter (fun b => decide (b.name = "m")) = [] :=
  delete_name_ignores_version.2.2 envNoFail [{ name := "m", version := "1" }] "m" "7"
    (fun _ => rfl) (fun _ => rfl) (by decide)

/-- C10 (counterexample): on a registry holding 51 versions of the name
"m", delete with bento_name="m" and bento_version="7" does delete the
named version "7" (version ignored, bulk path taken) but leaves version
"50" of that name behind — so not every version of the name is
deleted. -/
theorem delete_name_version_leaves_version :
    resultRegistry (delete envNoFail reg51m none none (some "m") (some "7") false) =
      some [{ name := "m", version := "50" }] ∧
    { name := "m", version := "50" } ∈ reg51m := by
  decide

/-- Updating a present key in place rewrites every entry of that key, so a
lookup afterwards finds the new value. -/
theorem dictGet_map_update (k v : String) :
    ∀ d : List (String × String), d.any (fun kv => decide (kv.1 = k)) = true →
      dictGet (d.map (fun kv => if kv.1 = k then (k, v) else kv)) k = some v := by
  intro d
  induction d with
  | nil => intro h; simp at h
  | cons kv1 rest ih =>
    intro h
    by_cases h1 : kv1.1 = k
    · simp [dictGet, h1, List.find?_cons]
    · have hrest : rest.any (fun kv => decide (kv.1 = k)) = true := by
        simpa [h1] using h
      have := ih hrest
      simpa [dictGet, h1, List.find?_cons] using this

/-- Appending a fresh key to a dict without that key makes a lookup find
the appended value. -/
theorem dictGet_append_fresh (k v : String) :
    ∀ d : List (String × String), d.any (fun kv => decide (kv.1 = k)) = false →
      dictGet (d ++ [(k, v)]) k = some v := by
  intro d
  induction d with
  | nil => simp [dictGet, List.find?_cons]
  | cons kv1 rest ih =>
    intro h
    have h1 : ¬(kv1.1 = k) := by
      intro hx
      simp [hx] at h
    have hrest : rest.any (fun kv => decide (kv.1 = k)) = false := by
      simpa [h1] using h
    simpa [dictGet, h1, List.find?_cons] using ih hrest

/-- Python dict write-then-read: after result[key] = value, result[key]
holds value — the later occurrence of a duplicate key wins. -/
theorem dictGet_dictSet (d : List (String × String)) (k v : String) :
    dictGet (dictSet d k v) k = some v := by
  by_cases hany : d.any (fun kv => decide (kv.1 = k)) = true
  · rw [dictSet, if_pos hany]
    exact dictGet_map_update k v d hany
  · rw [dictSet, if_neg hany]
    exact dictGet_append_fresh k v d (Bool.not_eq_true _ ▸ hany)

/-- C5 (amended): each token is split at every '=' (not only the first):
a token with exactly one '=' parses, with key and value stripped, and the
whole token list parses when every token is of that shape; duplicate keys
resolve to the last occurrence.  A token whose value itself contains '='
does not parse — it raises a ValueError instead of keeping the tail after
the first '=' (see parse_multi_eq_token_fails). -/
theorem parse_key_value_pairs_behavior :
    (∀ (toks : List String) (acc : List (String × String)),
      (∀ t ∈ toks, (pySplit '=' t).length = 2) →
      ∃ d, parseTokens toks acc = Except.ok d) ∧
    (∀ (d : List (String × String)) (k v : String),
      dictGet (dictSet d k v) k = some v) ∧
    parse_key_value_pairs "a=1,a=2" = Except.ok [("a", "2")] := by
  refine ⟨?_, dictGet_dictSet, by decide⟩
  intro toks
  induction toks with
  | nil => intro acc _; exact ⟨acc, rfl⟩
  | cons t rest ih =>
    intro acc h
    obtain ⟨k, v, hkv⟩ := List.length_eq_two.mp (h t (List.mem_cons_self t rest))
    obtain ⟨d, hd⟩ := ih (dictSet acc (pyStrip k) (pyStrip v))
      (fun u hu => h u (List.mem_cons_of_mem t hu))
    refine ⟨d, ?_⟩
    simpa [parseTokens, hkv] using hd

theorem parse_key_value_pairs_behavior_witness :
    (∃ d, parseTokens ["x=1"] [] = Except.ok d) ∧
    dictGet (dictSet [("x", "0")] "x" "9") "x" = some "9" :=
  ⟨parse_key_value_pairs_behavior.1 ["x=1"] [] (by decide),
   parse_key_value_pairs_behavior.2.1 [("x", "0")] "x" "9"⟩

/-- C5 (counterexample): the token "a=b=c", whose value would contain '=',
does not parse: key, value = token.split(sep) unpacks a three-element
split and raises ValueError, instead of succeeding with value "b=c" as
first-separator splitting would. -/
theorem parse_multi_eq_token_fails :
    parse_key_value_pairs "a=b=c" = Except.error "ValueError: unpack" ∧
    parse_key_value_pairs "a=b=c" ≠ Except.ok [("a", "b=c")] := by
  decide

end BentoMLSpec
